import Mathlib

/-!
Shallow embedding of the policy-document backend (services/policy_assistant_service.py,
services/llm_service.py, services/vector_db_service.py, services/policy_service.py and
the associated data models) and proofs about the frozen claims.

Conventions of the embedding:
* Python strings are Lean `String`s; `str.strip`, `str.split()`, `str.lower`,
  `str.replace` are re-implemented below following CPython's documented behaviour.
* Machine floats are never computed with; embedding vectors and distances are carried
  opaquely as `Rat` values (only list lengths are ever inspected by the code).
* Fallible external calls (Gemini embedding / completion, ChromaDB queries) are
  modelled as `Except String` values supplied by an environment record; a
  `.error e` value models the Python call raising an exception with message `e`.
* Python truthiness is modelled explicitly where the source relies on it
  (`if policy_type_filter:`, `x or ""`, `meta.get(..) or ..`).
-/

namespace Back156

/-! ### Python string primitives -/

/-- Python's `str.isspace` / `\s` whitespace class for the ASCII range
(` `, `\t`, `\n`, `\r`, `\v`, `\f`). -/
def pyIsSpace (c : Char) : Bool :=
  c = ' ' || c = '\t' || c = '\n' || c = '\r' || c = '\x0b' || c = '\x0c'

/-- Python `str.strip()`: remove leading and trailing whitespace. -/
def pyStrip (s : String) : String :=
  ⟨((s.data.dropWhile pyIsSpace).reverse.dropWhile pyIsSpace).reverse⟩

/-- Word accumulator for `str.split()` (split on whitespace runs, discard empties). -/
def splitWSAux : List Char → List Char → List (List Char)
  | [], acc => if acc.isEmpty then [] else [acc.reverse]
  | c :: cs, acc =>
    if pyIsSpace c then
      if acc.isEmpty then splitWSAux cs [] else acc.reverse :: splitWSAux cs []
    else splitWSAux cs (c :: acc)

/-- Python `str.split()` with no arguments. -/
def pySplitWS (s : String) : List String :=
  (splitWSAux s.data []).map String.mk

/-- Python `str.lower()` (ASCII-faithful; all strings the code lowercases are ASCII). -/
def pyLower (s : String) : String := ⟨s.data.map Char.toLower⟩

/-- Python `str.replace("\n", " ")`. -/
def pyReplaceNlSpace (s : String) : String :=
  ⟨s.data.map (fun c => if c = '\n' then ' ' else c)⟩

/-- The service's `_norm`: `(x or "").strip().lower()` applied to an optional string. -/
def pyNorm (x : Option String) : String := pyLower (pyStrip (x.getD ""))

/-- Substring test, modelling SQL `LIKE %s%` / SQLAlchemy `.contains`. -/
def containsSub (hay pat : String) : Bool :=
  (List.range (hay.data.length + 1)).any (fun i => pat.data.isPrefixOf (hay.data.drop i))

/-! ### First-seen deduplication and the CPython set model -/

/-- First-seen-order deduplication (the order `dict.fromkeys` preserves),
written with a `seen` accumulator so that it reduces by `rfl`/`decide`. -/
def firstSeenAux [DecidableEq α] (seen : List α) : List α → List α
  | [] => []
  | x :: xs => if x ∈ seen then firstSeenAux seen xs else x :: firstSeenAux (x :: seen) xs

/-- De-duplicate a list keeping the first occurrence of each element. -/
def firstSeen [DecidableEq α] (xs : List α) : List α := firstSeenAux [] xs

/-- `list({... for ...})` over Python policy ids.  A CPython `set` of at most four
distinct small non-negative ints whose residues mod 8 are pairwise distinct stores
each element in slot `id % 8` of its 8-slot hash table, and `list(...)` iterates the
slots in increasing order.  The theorems below rely only on the fact that the result
is a duplicate-free permutation of the distinct ids — except the C1 counterexample,
which lies inside this faithful domain. -/
def pySetIntList (xs : List Nat) : List Nat :=
  List.insertionSort (fun a b => a % 8 ≤ b % 8) (firstSeen xs)

/-! basic lemmas about the dedup/set model -/

theorem firstSeenAux_subset [DecidableEq α] (seen : List α) (xs : List α) :
    ∀ y ∈ firstSeenAux seen xs, y ∈ xs := by
  induction xs generalizing seen with
  | nil => simp [firstSeenAux]
  | cons x xs ih =>
    intro y hy
    simp only [firstSeenAux] at hy
    by_cases hx : x ∈ seen
    · simp [hx] at hy
      exact List.mem_cons_of_mem _ (ih seen y hy)
    · simp [hx] at hy
      rcases hy with h | h
      · simp [h]
      · exact List.mem_cons_of_mem _ (ih (x :: seen) y h)

theorem firstSeenAux_not_mem_seen [DecidableEq α] (seen : List α) (xs : List α) :
    ∀ y ∈ firstSeenAux seen xs, y ∉ seen := by
  induction xs generalizing seen with
  | nil => simp [firstSeenAux]
  | cons x xs ih =>
    intro y hy
    simp only [firstSeenAux] at hy
    by_cases hx : x ∈ seen
    · simp [hx] at hy
      exact ih seen y hy
    · simp [hx] at hy
      rcases hy with h | h
      · simpa [h] using hx
      · intro hseen
        exact (ih (x :: seen) y h) (List.mem_cons_of_mem _ hseen)

theorem firstSeenAux_nodup [DecidableEq α] (seen : List α) (xs : List α) :
    (firstSeenAux seen xs).Nodup := by
  induction xs generalizing seen with
  | nil => simp [firstSeenAux]
  | cons x xs ih =>
    simp only [firstSeenAux]
    by_cases hx : x ∈ seen
    · simpa [hx] using ih seen
    · simp only [hx, if_neg, ite_false]
      refine List.nodup_cons.mpr ⟨?_, ih (x :: seen)⟩
      intro hmem
      exact (firstSeenAux_not_mem_seen (x :: seen) xs x hmem) (List.mem_cons_self x seen)

theorem firstSeen_nodup [DecidableEq α] (xs : List α) : (firstSeen xs).Nodup :=
  firstSeenAux_nodup [] xs

theorem pySetIntList_perm_firstSeen (xs : List Nat) :
    List.Perm (pySetIntList xs) (firstSeen xs) :=
  List.perm_insertionSort _ _

theorem pySetIntList_nodup (xs : List Nat) : (pySetIntList xs).Nodup :=
  ((pySetIntList_perm_firstSeen xs).nodup_iff).mpr (firstSeen_nodup xs)

/-! ### Data model

`Policy` models the SQLAlchemy `Policy` row (`database/database.py`) as read by the
services: integer id, name, stored category string (a `PolicyType` value), description
and optional document path.  The datetime columns (`effective_date`, `created_at`,
`updated_at`) are copied verbatim into responses and never inspected by any verified
claim, so they are not carried in the model. -/
structure Policy where
  id : Nat
  name : String
  type : String
  description : String
  document_path : Option String := none
deriving DecidableEq, Repr

/-- `models/policy_models.py` `PolicyResponse` (datetime fields omitted as above). -/
structure PolicyResponse where
  id : Nat
  name : String
  type : String
  description : String
  document_path : Option String := none
  download_url : Option String := none
deriving DecidableEq, Repr

/-- The closed `PolicyType` enum values (`models/policy_models.py`). -/
def policyTypeValues : List String := ["leave", "hr", "it", "customer"]

/-- A chunk metadata dictionary as stored by `VectorDBService.add_document`:
the fields the assistant service reads, each optional (`dict.get` semantics).
`policy_id` is the integer id; a missing key is `none`. -/
structure ChunkMeta where
  policy_type : Option String := none
  policy_id : Option Nat := none
  policy_name : Option String := none
  title : Option String := none
deriving DecidableEq, Repr

/-- `{}`: the empty metadata dictionary (used for `m or {}`). -/
def emptyMeta : ChunkMeta := {}

/-- A Python value as it appears in ChromaDB `documents` lists: a string, a
list (or tuple) of values, or anything else (discarded by `_flatten_docs`). -/
inductive PyVal where
  | str (s : String)
  | lst (xs : List PyVal)
  | other
deriving Repr

/-! ### Policy catalog (`services/policy_service.py`) -/

/-- `PolicyService.get_policy`: `db.query(...).filter(id == policy_id).first()`. -/
def get_policy (db : List Policy) (policy_id : Nat) : Option Policy :=
  db.find? (fun p => p.id = policy_id)

/-- `PolicyService.get_policy_download_url`.  `fileExists` models
`os.path.exists`; `if policy.document_path and ...` is Python truthiness, so an
empty path string is treated as absent. -/
def get_policy_download_url (fileExists : String → Bool) (p : Policy) : Option String :=
  match p.document_path with
  | some path =>
    if path ≠ "" && fileExists path then
      some ("/api/v1/policies/" ++ toString p.id ++ "/download")
    else none
  | none => none

/-- The `PolicyResponse(...)` constructor calls in the assistant service: copy the
row fields (`.type` is already a string in the model) and attach the download url. -/
def toPolicyResponse (fileExists : String → Bool) (p : Policy) : PolicyResponse :=
  { id := p.id, name := p.name, type := p.type, description := p.description,
    document_path := p.document_path, download_url := get_policy_download_url fileExists p }

/-- `PolicyService.get_policies`.  `policy_type` truthiness guards the filter;
`PolicyType(policy_type.lower())` raises `ValueError` for a value outside the enum,
which `get_policies` converts to an `HTTPException` — modelled as `.error`.  The
`search` filter is `name.contains(s) | description.contains(s)`. -/
def get_policies (db : List Policy) (skip limit : Nat)
    (policy_type : Option String) (search : Option String) : Except String (List Policy) :=
  match policy_type with
  | some t =>
    if t ≠ "" then
      if (pyLower t) ∈ policyTypeValues then
        .ok ((((db.filter (fun p => p.type = pyLower t)).filter
          (fun p => match search with
            | some s => if s ≠ "" then containsSub p.name s || containsSub p.description s
                        else true
            | none => true)).drop skip).take limit)
      else .error "invalid policy type"
    else
      .ok (((db.filter (fun p => match search with
        | some s => if s ≠ "" then containsSub p.name s || containsSub p.description s
                    else true
        | none => true)).drop skip).take limit)
  | none =>
    .ok (((db.filter (fun p => match search with
      | some s => if s ≠ "" then containsSub p.name s || containsSub p.description s
                  else true
      | none => true)).drop skip).take limit)

/-! ### LLM service (`services/llm_service.py`) -/

/-- `EmbeddingResult` dataclass.  The vector entries are opaque `Rat`s. -/
structure EmbeddingResult where
  success : Bool
  embedding : Option (List Rat) := none
  error : Option String := none

/-- The dictionary `LLMService._answer_sync` returns: both keys always present. -/
structure LLMAnswer where
  success : Bool
  response : String
deriving DecidableEq, Repr

/-- `LLMService._answer_sync`: the Gemini call either yields `resp.text`
(possibly `None`, hence `Option String`) or raises.  On success the text is
`(resp.text or "").strip()`; on an exception `e` the result is
`{"success": False, "response": f"LLM error: {e}"}`. -/
def answer_sync (providerResult : Except String (Option String)) : LLMAnswer :=
  match providerResult with
  | .ok t => { success := true, response := pyStrip (t.getD "") }
  | .error e => { success := false, response := "LLM error: " ++ e }

/-- Word-grouping loop of `LLMService.chunk_pdf_content`:
`for i in range(0, len(words), chunk_size): words[i:i+chunk_size]`.
Meaningful only for `C ≥ 1` (the `C = 0` `ValueError` is handled by the caller). -/
def chunksOf (C : Nat) : List α → List (List α)
  | [] => []
  | x :: xs => (x :: xs.take (C - 1)) :: chunksOf C (xs.drop (C - 1))
termination_by l => l.length
decreasing_by
  simp only [List.length_drop, List.length_cons]
  omega

/-- Chunking of one page's extracted text: `words = text.split()`, then join each
block of `chunk_size` words with single spaces. -/
def chunkText (text : String) (C : Nat) : List String :=
  (chunksOf C (pySplitWS text)).map (fun ws => String.intercalate " " ws)

/-- `LLMService.chunk_pdf_content`.  The input models `PyPDF2` extraction: `.error`
when reading/extraction raises (the `except` branch returns `[]`), otherwise the
list of pages, each with `page.extract_text()`'s result (`none` = `None`).  Pages
with falsy text (`if text:`) contribute nothing.  A `chunk_size` of `0` makes
`range` raise `ValueError`, which the same `except` turns into `[]`. -/
def chunk_pdf_content (pdf : Except String (List (Option String)))
    (chunk_size : Nat := 1000) : List String :=
  if chunk_size = 0 then []
  else
    match pdf with
    | .error _ => []
    | .ok pages =>
      pages.flatMap (fun pg =>
        match pg with
        | none => []
        | some text => if text = "" then [] else chunkText text chunk_size)

/-! ### Vector DB service (`services/vector_db_service.py`) -/

/-- The formatted dictionary `VectorDBService.search` returns (all four keys
always present). -/
structure SearchResult where
  documents : List PyVal
  metadatas : List (Option ChunkMeta)
  distances : List Rat
  total_results : Nat

/-- The empty-results dictionary returned on every degraded path. -/
def emptySearchResult : SearchResult :=
  { documents := [], metadatas := [], distances := [], total_results := 0 }

/-- The raw ChromaDB `collection.query` result: one inner list per query
embedding (the service sends exactly one and reads index `[0]`). -/
structure RawQueryResult where
  documents : List (List PyVal)
  metadatas : List (List (Option ChunkMeta))
  distances : List (List Rat)

/-- The ChromaDB collection as the adapter sees it: a query function that can
raise.  The lazy `_initialize_client` is folded into the caller-supplied
`Option CollectionModel`: `none` models "client/collection unavailable after the
initialization attempt". -/
structure CollectionModel where
  query : List Rat → Nat → Option String → Except String RawQueryResult

/-- The `where_clause` built by `VectorDBService.search`: present only for a
truthy filter, normalized by `str(...).strip().lower()`. -/
def whereClauseOf (policy_type_filter : Option String) : Option String :=
  match policy_type_filter with
  | some t => if t ≠ "" then some (pyLower (pyStrip t)) else none
  | none => none

/-- `VectorDBService.search`.  Degraded paths (no collection, missing embedding
via `not query_embedding`, wrong dimension, or the query raising) all return the
empty-results dictionary; otherwise the first inner lists are extracted
(`results["documents"][0] if results.get("documents") else []`). -/
def VectorDB.search (coll : Option CollectionModel) (query_embedding : Option (List Rat))
    (n_results : Nat) (policy_type_filter : Option String) : SearchResult :=
  match coll with
  | none => emptySearchResult
  | some c =>
    match query_embedding with
    | none => emptySearchResult
    | some e =>
      if e.isEmpty || e.length ≠ 768 then emptySearchResult
      else
        match c.query e n_results (whereClauseOf policy_type_filter) with
        | .error _ => emptySearchResult
        | .ok r =>
          { documents := (r.documents.head?).getD []
            metadatas := (r.metadatas.head?).getD []
            distances := (r.distances.head?).getD []
            total_results := ((r.documents.head?).getD []).length }

/-- A chunk row held by the vector index (only the metadata policy id matters
for the deletion claims). -/
structure Chunk where
  policy_id : Nat
deriving DecidableEq, Repr

/-- The vector index contents. -/
structure IndexState where
  chunks : List Chunk
deriving DecidableEq, Repr

/-- `VectorDBService.delete_document`.  `available = false` models
"collection is `None` after the initialization attempt"; `raise? = some e` models
the `collection.get`/`collection.delete` calls raising (the index is then left in
its prior state).  Every path returns `True`. -/
def delete_document (available : Bool) (raise? : Option String)
    (st : IndexState) (policy_id : Nat) : Bool × IndexState :=
  if !available then (true, st)
  else
    match raise? with
    | some _ => (true, st)
    | none => (true, ⟨st.chunks.filter (fun ch => ch.policy_id ≠ policy_id)⟩)

/-- `PolicyService.delete_policy` as far as the db row and the vector index are
concerned: look the policy up (`first()`), return `False` if absent; otherwise
remove its document file (not modelled), call `delete_document`, delete the row,
commit and return `True`. -/
def delete_policy (available : Bool) (raise? : Option String)
    (db : List Policy) (st : IndexState) (policy_id : Nat) :
    Bool × List Policy × IndexState :=
  match get_policy db policy_id with
  | none => (false, db, st)
  | some _ =>
    let r := delete_document available raise? st policy_id
    (true, db.filter (fun p => p.id ≠ policy_id), r.2)

/-! ### Intent extraction (`PolicyAssistantService._validate_and_extract_policy_info`)

Only the `extracted_policy_types` field is modelled: it is the only part of the
validation result the responder reads (the name patterns, intent label and
confidence are carried through `validation_info` untouched and no claim mentions
them). -/

/-- Python `\w` for the ASCII range. -/
def isWordChar (c : Char) : Bool := c.isAlphanum || c = '_'

/-- The closed keyword alternatives of `\b(hr|it|leave|customer)\b`. -/
def typeKeywords : List String := ["hr", "it", "leave", "customer"]

/-- Case-insensitive literal prefix match. -/
def beginsWithCI : List Char → List Char → Bool
  | [], _ => true
  | _ :: _, [] => false
  | a :: ks, c :: cs => a = c.toLower && beginsWithCI ks cs

/-- `\b` after the keyword: the character following the match, if any, is not a
word character. -/
def boundaryAfter (k : List Char) (cs : List Char) : Bool :=
  match (cs.drop k.length).head? with
  | none => true
  | some c => !isWordChar c

/-- `re.findall(r"\b(hr|it|leave|customer)\b", prompt, re.IGNORECASE)`:
left-to-right scan attempting a whole-word keyword match at every position that
sits on a word boundary.  Matches are non-overlapping for free: every character
of a matched keyword is a word character, so no later match can begin inside the
matched span, and advancing one character at a time is equivalent to skipping the
span.  The emitted strings are already the lower-cased keywords
(`[t.lower() for t in type_matches]`). -/
def scanTypes : Bool → List Char → List String
  | _, [] => []
  | prevWord, c :: rest =>
    if prevWord then scanTypes (isWordChar c) rest
    else
      match typeKeywords.find? (fun k =>
        beginsWithCI k.data (c :: rest) && boundaryAfter k.data (c :: rest)) with
      | some k => k :: scanTypes (isWordChar c) rest
      | none => scanTypes (isWordChar c) rest

/-- The (modelled part of the) validation dictionary. -/
structure ValidationResult where
  extracted_policy_types : List String
deriving DecidableEq, Repr

/-- `_validate_and_extract_policy_info`, restricted to the policy-type field:
whole-word case-insensitive matches of the closed category set, lower-cased and
de-duplicated preserving first occurrence (`list(dict.fromkeys(...))`). -/
def validate_and_extract_policy_info (user_prompt : String) : ValidationResult :=
  { extracted_policy_types := firstSeen (scanTypes false user_prompt.data) }

/-- Lines 42–45 of `get_policy_chat_response`: explicit filter unless falsy or
`"all"`, else auto-narrowing to a unique detected type. -/
def effectiveTypeFilter (policy_type_filter : Option String)
    (detected : List String) : Option String :=
  let base : Option String :=
    match policy_type_filter with
    | some f => if f ≠ "" && f ≠ "all" then some f else none
    | none => none
  match base with
  | some f => some f
  | none =>
    match detected with
    | [t] => some t
    | _ => none

/-! ### The no-answer pattern (`_NO_ANSWER_PAT`)

The regex
`(?:can't|cannot|could not)\s+find|no (?:answer|information)|not\s+(?:available|present)|insufficient\s+(?:context|information)|i\s+don't\s+have|outside\s+the\s+provided\s+context`
compiled with `re.I` and used with `.search`.  It is a pure alternation of
sequences of literals separated by `\s+` (or containing literal spaces), so it is
embedded as a list of token sequences matched at every position of the
lower-cased text. -/

/-- One token of a refusal phrase: a literal or a `\s+` gap. -/
inductive PatTok where
  | lit (s : String)
  | gap

/-- The alternatives of `_NO_ANSWER_PAT`, lower-cased (`re.I` is modelled by
lower-casing the text before matching). -/
def noAnswerAlts : List (List PatTok) :=
  [[.lit "can\x27t", .gap, .lit "find"],
   [.lit "cannot", .gap, .lit "find"],
   [.lit "could not", .gap, .lit "find"],
   [.lit "no answer"],
   [.lit "no information"],
   [.lit "not", .gap, .lit "available"],
   [.lit "not", .gap, .lit "present"],
   [.lit "insufficient", .gap, .lit "context"],
   [.lit "insufficient", .gap, .lit "information"],
   [.lit "i", .gap, .lit "don\x27t", .gap, .lit "have"],
   [.lit "outside", .gap, .lit "the", .gap, .lit "provided", .gap, .lit "context"]]

/-- Match one token sequence at the start of `cs`.  `\s+` is greedy, but every
literal that follows a gap starts with a non-whitespace character, so consuming
the entire whitespace run is exact. -/
def matchSeq : List PatTok → List Char → Bool
  | [], _ => true
  | .lit l :: ps, cs => l.data.isPrefixOf cs && matchSeq ps (cs.drop l.data.length)
  | .gap :: ps, cs =>
    match cs with
    | [] => false
    | c :: rest => pyIsSpace c && matchSeq ps (rest.dropWhile pyIsSpace)

/-- `re.search`: try every start position. -/
def searchAlts (alts : List (List PatTok)) : List Char → Bool
  | [] => alts.any (fun p => matchSeq p [])
  | c :: rest => alts.any (fun p => matchSeq p (c :: rest)) || searchAlts alts rest

/-- `bool(_NO_ANSWER_PAT.search(text))`. -/
def noAnswerSearch (text : String) : Bool := searchAlts noAnswerAlts (pyLower text).data

/-- `PolicyAssistantService._looks_like_no_answer`: `True` for falsy text,
otherwise a pattern search.  (The only caller passes a genuine string, so the
`None` case of the `Optional[str]` parameter collapses to `""`.) -/
def looks_like_no_answer (text : String) : Bool :=
  if text = "" then true else noAnswerSearch text

/-! ### Flattening and deterministic synthesis -/

/-- `PolicyAssistantService._flatten_docs`: lists/tuples contribute their string
elements, bare strings contribute themselves, everything else is discarded. -/
def flatten_docs (docs : List PyVal) : List String :=
  docs.flatMap (fun d =>
    match d with
    | .lst xs => xs.filterMap (fun x => match x with | .str s => some s | _ => none)
    | .str s => [s]
    | .other => [])

/-- `re.split(r"(?<=[.!?])\s+", snippet, maxsplit=1)[0]`: the prefix up to (and
including) the first sentence-ending punctuation character that is followed by
whitespace; the whole string if there is none. -/
def firstSentence : List Char → List Char
  | [] => []
  | [c] => [c]
  | c :: d :: rest =>
    if (c = '.' || c = '!' || c = '?') && pyIsSpace d then [c]
    else c :: firstSentence (d :: rest)

/-- `meta.get("policy_name") or meta.get("title") or meta.get("policy_id")`
followed by `if title:`: the first *truthy* value in that preference order
(an empty string or the id `0` is falsy and skipped), stringified as the
f-string would. -/
def titleOf (m : Option ChunkMeta) : Option String :=
  let mm := m.getD emptyMeta
  match mm.policy_name with
  | some s =>
    if s ≠ "" then some s
    else
      match mm.title with
      | some t => if t ≠ "" then some t else mm.policy_id.bind
          (fun n => if n ≠ 0 then some (toString n) else none)
      | none => mm.policy_id.bind (fun n => if n ≠ 0 then some (toString n) else none)
  | none =>
    match mm.title with
    | some t => if t ≠ "" then some t else mm.policy_id.bind
        (fun n => if n ≠ 0 then some (toString n) else none)
    | none => mm.policy_id.bind (fun n => if n ≠ 0 then some (toString n) else none)

/-- One bullet of the synthesized answer: first sentence of the
newline-stripped, trimmed chunk text plus the provenance suffix. -/
def bulletFor (metadatas : List (Option ChunkMeta)) (idx : Nat) (txt : String) : String :=
  let snippet := pyReplaceNlSpace (pyStrip txt)
  let fs := String.mk (firstSentence snippet.data)
  let src :=
    match metadatas[idx]? with
    | some m =>
      match titleOf m with
      | some t => " — *" ++ t ++ "*"
      | none => ""
    | none => ""
  "- " ++ fs ++ src

/-- The bullet list over the first three flattened chunks. -/
def bulletsOf (flat : List String) (metadatas : List (Option ChunkMeta)) : List String :=
  (flat.take 3).enum.map (fun p => bulletFor metadatas p.1 p.2)

/-- Fixed lead-in of the synthesized answer. -/
def synthHeader : String :=
  "Here’s what the policy content indicates based on retrieved sections:\n\n"

/-- Fixed closing suggestion of the synthesized answer. -/
def synthFooter : String :=
  "\n\nIf you need a specific clause, ask me the section or a more direct question."

/-- `PolicyAssistantService._synthesize_from_chunks`. -/
def synthesize_from_chunks (_user_prompt : String) (documents : List PyVal)
    (metadatas : List (Option ChunkMeta)) : String :=
  let flat := flatten_docs documents
  if flat.isEmpty then ""
  else
    let bullets := bulletsOf flat metadatas
    if bullets.isEmpty then ""
    else synthHeader ++ String.intercalate "\n" bullets ++ synthFooter

/-! ### Fallback response (`PolicyAssistantService._generate_fallback_response`) -/

/-- The dictionary `_generate_fallback_response` returns. -/
structure FallbackResult where
  response : String
  policies : List PolicyResponse
deriving DecidableEq, Repr

/-- One "• **name** (type): description" line of the fallback enumeration. -/
def fallbackLine (p : Policy) : String :=
  "• **" ++ p.name ++ "** (" ++ p.type ++ "): " ++ p.description ++ "\n"

/-- `_generate_fallback_response`: list up to 5 catalog policies matching the
filter and render them; any exception (e.g. an invalid filter value making
`get_policies` raise) yields the fixed apology with no policies. -/
def generate_fallback_response (fileExists : String → Bool) (db : List Policy)
    (_user_prompt : String) (policy_type_filter : Option String) : FallbackResult :=
  match get_policies db 0 5 policy_type_filter none with
  | .error _ =>
    { response := "I couldn’t retrieve policy information at this time. Please try again later."
      policies := [] }
  | .ok policies =>
    let policy_responses := policies.map (toPolicyResponse fileExists)
    if policies.isEmpty then
      { response := "I couldn\x27t find any " ++ (policy_type_filter.getD "")
          ++ " policies matching your query."
        policies := [] }
    else
      { response :=
          "I found " ++ toString policies.length ++ " policies that might be relevant. "
          ++ (match policy_type_filter with
              | some f => if f ≠ "" then "These are " ++ f ++ " policies. " else ""
              | none => "")
          ++ "Here are the available policies:\n\n"
          ++ String.join (policies.map fallbackLine)
          ++ "\nFor more details, ask about a specific policy."
        policies := policy_responses }

/-! ### The responder (`PolicyAssistantService.get_policy_chat_response`) -/

/-- The environment of one `get_policy_chat_response` call: the outcomes of the
external calls it performs.  `vectorCall` is the vector search as an
`Except` so that an adapter that raises can be modelled; plugging in
`VectorDB.search` always gives `.ok`.  `provider` is the Gemini completion
outcome consumed by `answer_sync`. -/
structure Env where
  embed : EmbeddingResult
  vectorCall : Except String SearchResult
  provider : Except String (Option String)
  fileExists : String → Bool

/-- The response dictionary of `get_policy_chat_response`.  A key that some
paths omit (`error`) is an `Option`; `context_used` is `None` only on the
catch-all path. -/
structure ChatResponse where
  response : String
  relevant_policies : List PolicyResponse
  context_used : Option String
  success : Bool
  error : Option String := none
  validation_info : Option ValidationResult := none
deriving DecidableEq, Repr

/-- The catch-all except branch (lines 166–174): fixed apology, empty policy
list, success `False`, the error detail attached.  In the pure embedding no
modelled step raises, so the responder below never produces it; it is kept as
the shape the claims compare against. -/
def catchAllResponse (e : String) : ChatResponse :=
  { response := "I apologize, but I encountered an error while processing your request. Please try again or contact support if the issue persists."
    relevant_policies := []
    context_used := none
    success := false
    error := some e }

/-- The generic substitute used when the final answer text is empty
(`answer_text or "I couldn’t find an answer in the current policies."`). -/
def genericNoAnswer : String := "I couldn’t find an answer in the current policies."

/-- `_norm((m or {}).get("policy_type"))` for one metadata entry. -/
def metaTypeNorm (m : Option ChunkMeta) : String :=
  pyNorm (m.getD emptyMeta).policy_type

/-- The comparison of the post-filter:
`_norm((m or {}).get("policy_type")) == _norm(effective_type_filter)`. -/
def metaMatches (f : String) (m : Option ChunkMeta) : Bool :=
  metaTypeNorm m = pyNorm (some f)

/-- The defensive post-filter (lines 85–91): keep the indices whose metadata
category equals the normalized filter; if none survive, both lists become
empty.  (`docs[i]` is modelled with `[i]?`; the adapter returns parallel
`documents`/`metadatas` lists, and theorems that need it assume equal length.) -/
def postFilter (f : String) (docs : List PyVal) (metas : List (Option ChunkMeta)) :
    List PyVal × List (Option ChunkMeta) :=
  let keep := (List.range metas.length).filter
    (fun i => metaMatches f ((metas[i]?).getD none))
  if keep.isEmpty then ([], [])
  else (keep.filterMap (fun i => docs[i]?), keep.filterMap (fun i => metas[i]?))

/-- The set comprehension of lines 94–98: the non-`None` `policy_id` values. -/
def policyIdsOf (metas : List (Option ChunkMeta)) : List Nat :=
  metas.filterMap (fun m => (m.getD emptyMeta).policy_id)

/-- `rel_ids = list({...})`: the id set, listed in CPython set-iteration order. -/
def relIdsOf (metas : List (Option ChunkMeta)) : List Nat :=
  pySetIntList (policyIdsOf metas)

/-- The `for pid in rel_ids` loop, relevant-policies part: append a
`PolicyResponse` for every id that resolves in the catalog. -/
def relevantPoliciesLoop (fileExists : String → Bool) (db : List Policy) :
    List Nat → List PolicyResponse
  | [] => []
  | pid :: rest =>
    match get_policy db pid with
    | some pol => toPolicyResponse fileExists pol :: relevantPoliciesLoop fileExists db rest
    | none => relevantPoliciesLoop fileExists db rest

/-- The same loop, context-texts part: `"name (type): description"` for every
resolved policy with a truthy description. -/
def contextTextsLoop (db : List Policy) : List Nat → List String
  | [] => []
  | pid :: rest =>
    match get_policy db pid with
    | some pol =>
      if pol.description ≠ "" then
        (pol.name ++ " (" ++ pol.type ++ "): " ++ pol.description) :: contextTextsLoop db rest
      else contextTextsLoop db rest
    | none => contextTextsLoop db rest

/-- The `(docs, metas)` pair after the optional post-filter step. -/
def filteredDocsMetas (eff : Option String) (sr : SearchResult) :
    List PyVal × List (Option ChunkMeta) :=
  match eff with
  | some f => if f ≠ "" then postFilter f sr.documents sr.metadatas
              else (sr.documents, sr.metadatas)
  | none => (sr.documents, sr.metadatas)

/-- `context_data`: policy description lines first, then the flattened chunk
texts, blank-line separated. -/
def contextDataOf (db : List Policy) (eff : Option String) (sr : SearchResult) : String :=
  let dm := filteredDocsMetas eff sr
  String.intercalate "\n\n"
    (contextTextsLoop db (relIdsOf dm.2) ++ flatten_docs dm.1)

/-- `PolicyAssistantService.get_policy_chat_response`.  Pure model of the whole
pipeline; every branch of the source appears in order.  The top-level
`try/except` is not reachable here because all modelled failures are already
`Except`/`Option` values handled by inner branches. -/
def get_policy_chat_response (env : Env) (db : List Policy) (user_prompt : String)
    (policy_type_filter : Option String) : ChatResponse :=
  let validation := validate_and_extract_policy_info user_prompt
  let eff := effectiveTypeFilter policy_type_filter validation.extracted_policy_types
  if !env.embed.success then
    let fb := generate_fallback_response env.fileExists db user_prompt eff
    { response := fb.response, relevant_policies := fb.policies
      context_used := some "Embedding failed; returned fallback results"
      success := true, validation_info := some validation }
  else
    match env.vectorCall with
    | .error _ =>
      let fb := generate_fallback_response env.fileExists db user_prompt eff
      { response := fb.response, relevant_policies := fb.policies
        context_used := some "Vector search failed; returned fallback results"
        success := true, validation_info := some validation }
    | .ok sr =>
      let dm := filteredDocsMetas eff sr
      let rel_ids := relIdsOf dm.2
      let relevant_policies := relevantPoliciesLoop env.fileExists db rel_ids
      let flat_docs := flatten_docs dm.1
      if pyStrip (contextDataOf db eff sr) ≠ "" then
        let payload := answer_sync env.provider
        let pair :=
          if looks_like_no_answer payload.response && !flat_docs.isEmpty then
            let syn := synthesize_from_chunks user_prompt (flat_docs.map .str) dm.2
            if syn ≠ "" then (syn, true) else (payload.response, payload.success)
          else (payload.response, payload.success)
        { response := if pair.1 = "" then genericNoAnswer else pair.1
          relevant_policies := relevant_policies
          context_used := some ("Found " ++ toString flat_docs.length
            ++ " relevant policy sections"
            ++ (match eff with
                | some f => if f ≠ "" then " (type=" ++ f ++ ")" else ""
                | none => ""))
          success := pair.2
          validation_info := some validation }
      else
        let fb := generate_fallback_response env.fileExists db user_prompt eff
        { response := fb.response, relevant_policies := fb.policies
          context_used := some "No matching policy sections after filtering; used fallback."
          success := true, validation_info := some validation }

/-! ## Shared helper lemmas -/

theorem relevantPoliciesLoop_eq_filterMap (fe : String → Bool) (db : List Policy)
    (ids : List Nat) :
    relevantPoliciesLoop fe db ids
      = ids.filterMap (fun pid => (get_policy db pid).map (toPolicyResponse fe)) := by
  induction ids with
  | nil => rfl
  | cons pid rest ih =>
    simp only [relevantPoliciesLoop, List.filterMap_cons]
    cases h : get_policy db pid <;> simp [h, ih]

/-! ## Claim C1 -/

/-- Metadata of a retrieval that returns a chunk of policy 2 first, then a chunk
of policy 1. -/
def c1Metas : List (Option ChunkMeta) :=
  [some { policy_id := some 2, policy_type := some "hr" },
   some { policy_id := some 1, policy_type := some "hr" }]

/-- Environment for the C1 run: embedding and retrieval succeed, the completion
provider returns an ordinary answer. -/
def c1Env : Env :=
  { embed := { success := true, embedding := some [] }
    vectorCall := .ok { documents := [.str "Two text.", .str "One text."]
                        metadatas := c1Metas, distances := [], total_results := 2 }
    provider := .ok (some "Completion text.")
    fileExists := fun _ => false }

/-- Catalog holding both policies of the C1 run. -/
def c1Db : List Policy :=
  [{ id := 1, name := "P1", type := "hr", description := "D1" },
   { id := 2, name := "P2", type := "hr", description := "D2" }]

/-- C1, counterexample: with chunks whose metadata carries policy ids 2 then 1,
`rel_ids = list({...})` iterates the CPython set as `[1, 2]`, not in first-seen
order `[2, 1]`, and the relevant-policies list of the full responder follows
that set order. -/
theorem C1_counterexample :
    relIdsOf c1Metas ≠ firstSeen (policyIdsOf c1Metas)
    ∧ relIdsOf c1Metas = [1, 2]
    ∧ firstSeen (policyIdsOf c1Metas) = [2, 1]
    ∧ ((get_policy_chat_response c1Env c1Db "zz" none).relevant_policies.map
        (fun r => r.id)) = [1, 2] := by
  decide

/-- C1, amended: the policy ids looked up in the catalog are the distinct
`policy_id` values of the chunk metadata — duplicate-free and a permutation of
the first-seen deduplication, but in the (hash-table) iteration order of a
Python set rather than first-seen order — and the relevant-policies list follows
that sequence, skipping ids that do not resolve in the catalog. -/
theorem C1_amended (metas : List (Option ChunkMeta)) (db : List Policy)
    (fe : String → Bool) :
    (relIdsOf metas).Nodup
    ∧ List.Perm (relIdsOf metas) (firstSeen (policyIdsOf metas))
    ∧ relevantPoliciesLoop fe db (relIdsOf metas)
        = (relIdsOf metas).filterMap
            (fun pid => (get_policy db pid).map (toPolicyResponse fe)) :=
  ⟨pySetIntList_nodup _, pySetIntList_perm_firstSeen _,
    relevantPoliciesLoop_eq_filterMap fe db _⟩

/-! ## Claim C2 -/

/-- Environment for the C2 run: embedding and retrieval succeed with one chunk,
the completion provider raises `boom`. -/
def c2Env : Env :=
  { embed := { success := true, embedding := some [] }
    vectorCall := .ok { documents := [.str "Alpha data."]
                        metadatas := [some { policy_id := some 1, policy_type := some "hr" }]
                        distances := [], total_results := 1 }
    provider := .error "boom"
    fileExists := fun _ => false }

/-- C2, counterexample: when the completion provider errors, `_answer_sync`
reports `success=False` with text `LLM error: boom`; the responder uses that
flag verbatim, so the returned result has `success=false` without the top-level
catch-all having run (no `error` detail is attached, and the response is the
provider error text rather than the fixed apology). -/
theorem C2_counterexample :
    (get_policy_chat_response c2Env [] "zz" none).success = false
    ∧ (get_policy_chat_response c2Env [] "zz" none).error = none
    ∧ (get_policy_chat_response c2Env [] "zz" none).response = "LLM error: boom"
    ∧ get_policy_chat_response c2Env [] "zz" none ≠ catchAllResponse "boom" := by
  decide

/-- C2, amended: the embedding-failure, vector-search-failure and empty-context
paths always report `success=true`, but the catch-all is not the only
`success=false` path: when the completion provider errors and its `LLM error:`
text does not look like a no-answer refusal, the responder returns
`success=false` with no error detail attached. -/
theorem C2_amended (env : Env) (db : List Policy) (p : String) (f : Option String) :
    (env.embed.success = false → (get_policy_chat_response env db p f).success = true)
    ∧ (∀ e, env.vectorCall = .error e → (get_policy_chat_response env db p f).success = true)
    ∧ (∀ sr, env.embed.success = true → env.vectorCall = .ok sr →
        pyStrip (contextDataOf db (effectiveTypeFilter f
          (validate_and_extract_policy_info p).extracted_policy_types) sr) = "" →
        (get_policy_chat_response env db p f).success = true)
    ∧ (∀ sr e, env.embed.success = true → env.vectorCall = .ok sr →
        env.provider = .error e →
        looks_like_no_answer ("LLM error: " ++ e) = false →
        pyStrip (contextDataOf db (effectiveTypeFilter f
          (validate_and_extract_policy_info p).extracted_policy_types) sr) ≠ "" →
        (get_policy_chat_response env db p f).success = false
        ∧ (get_policy_chat_response env db p f).error = none) := by
  refine ⟨?_, ?_, ?_, ?_⟩
  · intro h
    simp [get_policy_chat_response, h]
  · intro e h
    by_cases hb : env.embed.success <;> simp [get_policy_chat_response, hb, h]
  · intro sr hb hv hctx
    simp [get_policy_chat_response, hb, hv, hctx]
  · intro sr e hb hv hp hla hctx
    simp [get_policy_chat_response, hb, hv, hp, answer_sync, hla, hctx]

/-- C2, witness for the amended theorem at the concrete C2 environment. -/
theorem C2_witness :
    (get_policy_chat_response c2Env [] "zz" none).success = false
    ∧ (get_policy_chat_response c2Env [] "zz" none).error = none :=
  (C2_amended c2Env [] "zz" none).2.2.2 _ "boom" rfl rfl rfl (by decide) (by decide)

/-! ## Claim C3 -/

/-- `flatten_docs` is the identity on an already-flat list of strings. -/
theorem flatten_docs_map_str (l : List String) : flatten_docs (l.map .str) = l := by
  induction l with
  | nil => rfl
  | cons x xs ih =>
    simp only [List.map_cons, flatten_docs, List.flatMap_cons] at *
    simpa using ih

/-- The synthesized answer is a nonempty string. -/
theorem synthHeader_append_ne_empty (x : String) : synthHeader ++ x ++ synthFooter ≠ "" := by
  intro h
  have h2 : synthHeader.data ++ x.data ++ synthFooter.data = ([] : List Char) := by
    have h3 : (synthHeader ++ x ++ synthFooter).data = ([] : List Char) := by
      rw [h]
    exact h3
  rcases List.append_eq_nil.mp h2 with ⟨h4, -⟩
  rcases List.append_eq_nil.mp h4 with ⟨h5, -⟩
  exact absurd h5 (by decide)

/-- Synthesis from a nonempty flattened chunk list never returns the empty
string. -/
theorem synthesize_from_chunks_ne_empty (p : String) (flat : List String)
    (metas : List (Option ChunkMeta)) (h : flat ≠ []) :
    synthesize_from_chunks p (flat.map .str) metas ≠ "" := by
  simp only [synthesize_from_chunks, flatten_docs_map_str]
  have hni : flat.isEmpty = false := by
    cases flat with
    | nil => exact absurd rfl h
    | cons a l => rfl
  rw [hni]
  simp only [Bool.false_eq_true, if_false]
  have hb : (bulletsOf flat metas).isEmpty = false := by
    cases flat with
    | nil => exact absurd rfl h
    | cons a l => rfl
  rw [hb]
  simp only [Bool.false_eq_true, if_false]
  exact synthHeader_append_ne_empty _

/-- A text that does not look like a no-answer is nonempty. -/
theorem ne_empty_of_not_looks_like (t : String) (h : looks_like_no_answer t = false) :
    t ≠ "" := by
  intro he
  subst he
  simp [looks_like_no_answer] at h

/-- Shorthand for the effective filter computed from a prompt and an explicit
filter argument. -/
def effOf (p : String) (f : Option String) : Option String :=
  effectiveTypeFilter f (validate_and_extract_policy_info p).extracted_policy_types

/-- The `(answer_text, success_flag)` pair of the answer-generation step
(lines 138–145), as a function of the provider outcome, the flattened chunks
and their metadata. -/
def llmPair (env : Env) (p : String) (flat : List String)
    (metas : List (Option ChunkMeta)) : String × Bool :=
  let payload := answer_sync env.provider
  if looks_like_no_answer payload.response && !flat.isEmpty then
    let syn := synthesize_from_chunks p (flat.map .str) metas
    if syn ≠ "" then (syn, true) else (payload.response, payload.success)
  else (payload.response, payload.success)

/-- On the successful-retrieval path with nonempty context, the responder
returns the answer-generation record. -/
theorem get_policy_chat_response_llm_branch (env : Env) (db : List Policy) (p : String)
    (f : Option String) (sr : SearchResult)
    (hb : env.embed.success = true) (hv : env.vectorCall = .ok sr)
    (hctx : pyStrip (contextDataOf db (effOf p f) sr) ≠ "") :
    get_policy_chat_response env db p f =
      { response :=
          if (llmPair env p (flatten_docs (filteredDocsMetas (effOf p f) sr).1)
              (filteredDocsMetas (effOf p f) sr).2).1 = "" then genericNoAnswer
          else (llmPair env p (flatten_docs (filteredDocsMetas (effOf p f) sr).1)
              (filteredDocsMetas (effOf p f) sr).2).1
        relevant_policies :=
          relevantPoliciesLoop env.fileExists db (relIdsOf (filteredDocsMetas (effOf p f) sr).2)
        context_used := some ("Found "
          ++ toString (flatten_docs (filteredDocsMetas (effOf p f) sr).1).length
          ++ " relevant policy sections"
          ++ (match effOf p f with
              | some f' => if f' ≠ "" then " (type=" ++ f' ++ ")" else ""
              | none => ""))
        success := (llmPair env p (flatten_docs (filteredDocsMetas (effOf p f) sr).1)
          (filteredDocsMetas (effOf p f) sr).2).2
        validation_info := some (validate_and_extract_policy_info p) } := by
  simp only [get_policy_chat_response, hb, hv, Bool.not_true, Bool.false_eq_true, if_false]
  rw [if_pos (show pyStrip (contextDataOf db (effectiveTypeFilter f
    (validate_and_extract_policy_info p).extracted_policy_types) sr) ≠ "" from hctx)]
  rfl

/-- Environment for the C3 run: provider succeeds but returns empty text, one
chunk retrieved. -/
def c3Env : Env :=
  { embed := { success := true, embedding := some [] }
    vectorCall := .ok { documents := [.str "Alpha beta."]
                        metadatas := [some { policy_id := some 1,
                                             policy_name := some "Alpha Policy" }]
                        distances := [], total_results := 1 }
    provider := .ok (some "")
    fileExists := fun _ => false }

set_option maxRecDepth 4000 in
/-- C3, counterexample: empty provider text does not match the refusal regex,
so by the claim the generic couldn't-find-an-answer string should be
substituted; the code instead runs deterministic synthesis (because
`_looks_like_no_answer` is also true for empty text) and returns the
synthesized bullet list. -/
theorem C3_counterexample :
    noAnswerSearch "" = false
    ∧ (get_policy_chat_response c3Env [] "zz" none).response
        = synthHeader ++ "- Alpha beta. — *Alpha Policy*" ++ synthFooter
    ∧ (get_policy_chat_response c3Env [] "zz" none).response ≠ genericNoAnswer := by
  decide

/-- C3, amended: synthesis fires when the provider text is empty *or* matches
the refusal pattern (that is, when `_looks_like_no_answer` holds) and at least
one flattened chunk exists, producing the synthesized text with `success=true`;
when the text does not look like a no-answer, text and flag are used verbatim;
and when no chunk survives flattening, the text and flag are used with the
generic couldn't-find-an-answer string substituted exactly for empty text. -/
theorem C3_amended (env : Env) (db : List Policy) (p : String) (f : Option String)
    (sr : SearchResult) (hb : env.embed.success = true) (hv : env.vectorCall = .ok sr)
    (hctx : pyStrip (contextDataOf db (effOf p f) sr) ≠ "") :
    (looks_like_no_answer (answer_sync env.provider).response = true →
      flatten_docs (filteredDocsMetas (effOf p f) sr).1 ≠ [] →
      (get_policy_chat_response env db p f).response
        = synthesize_from_chunks p
            ((flatten_docs (filteredDocsMetas (effOf p f) sr).1).map .str)
            (filteredDocsMetas (effOf p f) sr).2
      ∧ (get_policy_chat_response env db p f).success = true)
    ∧ (looks_like_no_answer (answer_sync env.provider).response = false →
        (get_policy_chat_response env db p f).response = (answer_sync env.provider).response
        ∧ (get_policy_chat_response env db p f).success = (answer_sync env.provider).success)
    ∧ (flatten_docs (filteredDocsMetas (effOf p f) sr).1 = [] →
        (get_policy_chat_response env db p f).response
          = (if (answer_sync env.provider).response = "" then genericNoAnswer
             else (answer_sync env.provider).response)
        ∧ (get_policy_chat_response env db p f).success = (answer_sync env.provider).success) := by
  rw [get_policy_chat_response_llm_branch env db p f sr hb hv hctx]
  refine ⟨?_, ?_, ?_⟩
  · intro hla hflat
    have hsyn := synthesize_from_chunks_ne_empty p _
      (filteredDocsMetas (effOf p f) sr).2 hflat
    have hfe : (flatten_docs (filteredDocsMetas (effOf p f) sr).1).isEmpty = false := by
      cases hh : flatten_docs (filteredDocsMetas (effOf p f) sr).1 with
      | nil => exact absurd hh hflat
      | cons a l => rfl
    simp only [llmPair, hla, hfe, Bool.not_false, Bool.and_self, if_true, hsyn, ne_eq,
      not_false_iff, ite_true]
    simp [hsyn]
  · intro hla
    have hne := ne_empty_of_not_looks_like _ hla
    simp only [llmPair, hla, Bool.false_and, Bool.false_eq_true, if_false]
    simp [hne]
  · intro hflat
    simp only [llmPair, hflat, List.isEmpty_nil, Bool.not_true, Bool.and_false,
      Bool.false_eq_true, if_false]
    simp

/-- C3, witness for the amended theorem at the concrete C3 environment:
empty provider text with one retrieved chunk yields the synthesized answer with
success true. -/
theorem C3_witness :
    (get_policy_chat_response c3Env [] "zz" none).response
      = synthesize_from_chunks "zz"
          ((flatten_docs (filteredDocsMetas (effOf "zz" none)
            { documents := [.str "Alpha beta."]
              metadatas := [some { policy_id := some 1,
                                   policy_name := some "Alpha Policy" }]
              distances := [], total_results := 1 }).1).map .str)
          (filteredDocsMetas (effOf "zz" none)
            { documents := [.str "Alpha beta."]
              metadatas := [some { policy_id := some 1,
                                   policy_name := some "Alpha Policy" }]
              distances := [], total_results := 1 }).2
    ∧ (get_policy_chat_response c3Env [] "zz" none).success = true :=
  (C3_amended c3Env [] "zz" none _ rfl rfl (by decide)).1 (by decide) (by decide)

/-! ## Claim C4 -/

/-- C4: with no explicit filter selected (absent or `"all"`), a single distinct
detected category becomes the effective category, zero or several distinct
detections leave the request unfiltered, and an explicit filter from the closed
category set (the only non-`"all"` values the route admits) is always used
regardless of the mentions. -/
theorem C4_effective_category (prompt : String) (f : Option String) :
    ((f = none ∨ f = some "all") → ∀ t,
      (validate_and_extract_policy_info prompt).extracted_policy_types = [t] →
      effectiveTypeFilter f (validate_and_extract_policy_info prompt).extracted_policy_types
        = some t)
    ∧ ((f = none ∨ f = some "all") →
      (validate_and_extract_policy_info prompt).extracted_policy_types.length ≠ 1 →
      effectiveTypeFilter f (validate_and_extract_policy_info prompt).extracted_policy_types
        = none)
    ∧ (∀ c, c ∈ policyTypeValues → f = some c →
      effectiveTypeFilter f (validate_and_extract_policy_info prompt).extracted_policy_types
        = some c) := by
  refine ⟨?_, ?_, ?_⟩
  · rintro (rfl | rfl) t ht <;> simp [effectiveTypeFilter, ht]
  · rintro (rfl | rfl) hlen <;>
    · match hdet : (validate_and_extract_policy_info prompt).extracted_policy_types with
      | [] => simp [effectiveTypeFilter, hdet]
      | [t] => rw [hdet] at hlen; simp at hlen
      | t₁ :: t₂ :: rest => simp [effectiveTypeFilter, hdet]
  · intro c hc hf
    subst hf
    have hne : c ≠ "" ∧ c ≠ "all" := by
      simp only [policyTypeValues, List.mem_cons, List.mem_singleton] at hc
      rcases hc with rfl | rfl | rfl | rfl | h
      · exact ⟨by decide, by decide⟩
      · exact ⟨by decide, by decide⟩
      · exact ⟨by decide, by decide⟩
      · exact ⟨by decide, by decide⟩
      · simp at h
    simp [effectiveTypeFilter, hne.1, hne.2]

/-- C4, witness: the prompt `What is the hr policy?` with no explicit filter
narrows to `hr`; a prompt mentioning `it` and `hr` stays unfiltered; and an
explicit `it` filter wins over an `hr` mention. -/
theorem C4_witness :
    (effectiveTypeFilter none
      (validate_and_extract_policy_info "What is the hr policy?").extracted_policy_types
      = some "hr")
    ∧ (effectiveTypeFilter (some "all")
      (validate_and_extract_policy_info "it and hr rules").extracted_policy_types
      = none)
    ∧ (effectiveTypeFilter (some "it")
      (validate_and_extract_policy_info "the hr rules").extracted_policy_types
      = some "it") :=
  ⟨(C4_effective_category "What is the hr policy?" none).1 (Or.inl rfl) "hr" (by decide),
   (C4_effective_category "it and hr rules" (some "all")).2.1 (Or.inr rfl) (by decide),
   (C4_effective_category "the hr rules" (some "it")).2.2 "it" (by decide) rfl⟩

/-! ## Claim C5 -/

/-- Every extracted category mention is one of the closed keywords. -/
theorem scanTypes_mem_keywords :
    ∀ (b : Bool) (cs : List Char), ∀ x ∈ scanTypes b cs, x ∈ typeKeywords := by
  intro b cs
  induction cs generalizing b with
  | nil => simp [scanTypes]
  | cons c rest ih =>
    intro x hx
    simp only [scanTypes] at hx
    by_cases hp : b
    · simp only [hp, if_true] at hx
      exact ih _ x hx
    · simp only [hp, Bool.false_eq_true, if_false] at hx
      cases hfind : typeKeywords.find? (fun k =>
          beginsWithCI k.data (c :: rest) && boundaryAfter k.data (c :: rest)) with
      | none =>
        rw [hfind] at hx
        exact ih _ x hx
      | some k =>
        rw [hfind] at hx
        rcases List.mem_cons.mp hx with rfl | hx'
        · exact List.mem_of_find?_eq_some hfind
        · exact ih _ x hx'

/-- `firstSeen` only keeps elements of its input. -/
theorem firstSeen_subset [DecidableEq α] (xs : List α) : ∀ y ∈ firstSeen xs, y ∈ xs :=
  firstSeenAux_subset [] xs

/-- An effective category is either the explicit (truthy, non-`all`) filter or
one of the detected mentions. -/
theorem effectiveTypeFilter_some (f : Option String) (det : List String) (c : String)
    (h : effectiveTypeFilter f det = some c) :
    (f = some c ∧ c ≠ "" ∧ c ≠ "all") ∨ c ∈ det := by
  unfold effectiveTypeFilter at h
  cases f with
  | none =>
    simp only at h
    match det, h with
    | [], h => simp at h
    | [t], h =>
      simp only [Option.some.injEq] at h
      subst h
      exact Or.inr (by simp)
    | t₁ :: t₂ :: r, h => simp at h
  | some g =>
    by_cases hg : (g ≠ "" && g ≠ "all") = true
    · simp only [hg, if_true] at h
      have hgc : g = c := by injection h
      subst hgc
      have hgs : g ≠ "" ∧ g ≠ "all" := by simpa using hg
      exact Or.inl ⟨rfl, hgs.1, hgs.2⟩
    · simp only [hg, Bool.false_eq_true, if_false] at h
      match det, h with
      | [], h => simp at h
      | [t], h =>
        simp only [Option.some.injEq] at h
        subst h
        exact Or.inr (by simp)
      | t₁ :: t₂ :: r, h => simp at h

/-- The effective category of a real request is never the empty string. -/
theorem effective_of_prompt_ne_empty (p : String) (f : Option String) (c : String)
    (h : effectiveTypeFilter f (validate_and_extract_policy_info p).extracted_policy_types
      = some c) : c ≠ "" := by
  rcases effectiveTypeFilter_some _ _ _ h with ⟨-, hne, -⟩ | hc
  · exact hne
  · have h1 : c ∈ scanTypes false p.data := by
      have := firstSeen_subset (scanTypes false p.data) c
      simpa [validate_and_extract_policy_info] using this hc
    have h2 := scanTypes_mem_keywords false p.data c h1
    simp only [typeKeywords, List.mem_cons, List.mem_singleton] at h2
    rcases h2 with rfl | rfl | rfl | rfl | h3
    · decide
    · decide
    · decide
    · decide
    · simp at h3

/-- C5: whenever the embedding step reports failure, the responder returns
exactly the fallback record — success true, the embedding-failed context-used
string, and the fallback policies — and every returned policy comes from the
catalog, with the effective category respected when one is in force. -/
theorem C5_embedding_failure (env : Env) (db : List Policy) (p : String)
    (f : Option String) (h : env.embed.success = false) :
    (get_policy_chat_response env db p f =
      { response := (generate_fallback_response env.fileExists db p
          (effectiveTypeFilter f (validate_and_extract_policy_info p).extracted_policy_types)).response
        relevant_policies := (generate_fallback_response env.fileExists db p
          (effectiveTypeFilter f (validate_and_extract_policy_info p).extracted_policy_types)).policies
        context_used := some "Embedding failed; returned fallback results"
        success := true
        validation_info := some (validate_and_extract_policy_info p) })
    ∧ ∀ pr ∈ (get_policy_chat_response env db p f).relevant_policies,
        ∃ pol ∈ db, pr = toPolicyResponse env.fileExists pol
          ∧ ∀ c, effectiveTypeFilter f
              (validate_and_extract_policy_info p).extracted_policy_types = some c →
              pol.type = pyLower c := by
  have heq : get_policy_chat_response env db p f =
      { response := (generate_fallback_response env.fileExists db p
          (effectiveTypeFilter f (validate_and_extract_policy_info p).extracted_policy_types)).response
        relevant_policies := (generate_fallback_response env.fileExists db p
          (effectiveTypeFilter f (validate_and_extract_policy_info p).extracted_policy_types)).policies
        context_used := some "Embedding failed; returned fallback results"
        success := true
        validation_info := some (validate_and_extract_policy_info p) } := by
    simp [get_policy_chat_response, h]
  refine ⟨heq, ?_⟩
  intro pr hpr
  rw [heq] at hpr
  simp only at hpr
  set eff := effectiveTypeFilter f
    (validate_and_extract_policy_info p).extracted_policy_types with heff
  unfold generate_fallback_response at hpr
  cases hq : get_policies db 0 5 eff none with
  | error e => rw [hq] at hpr; simp at hpr
  | ok lst =>
    rw [hq] at hpr
    by_cases hemp : lst.isEmpty
    · simp [hemp] at hpr
    · simp only [hemp, Bool.false_eq_true, if_false, List.mem_map] at hpr
      · rcases hpr with ⟨pol, hpol, rfl⟩
        refine ⟨pol, ?_, rfl, ?_⟩
        · -- membership in the catalog, from the `get_policies` result
          cases heffc : eff with
          | none =>
            rw [heffc] at hq
            unfold get_policies at hq
            simp only [Except.ok.injEq] at hq
            subst hq
            have := List.mem_of_mem_take hpol
            rw [List.drop_zero] at this
            exact (List.mem_filter.mp this).1
          | some c =>
            rw [heffc] at hq
            unfold get_policies at hq
            have hcne : c ≠ "" := effective_of_prompt_ne_empty p f c (heff ▸ heffc)
            simp only [hcne, ne_eq, not_false_iff, if_true] at hq
            by_cases hval : pyLower c ∈ policyTypeValues
            · simp only [hval, if_true, Except.ok.injEq] at hq
              subst hq
              have := List.mem_of_mem_take hpol
              rw [List.drop_zero] at this
              exact (List.mem_filter.mp (List.mem_filter.mp this).1).1
            · simp [hval] at hq
        · intro c hc
          rw [hc] at hq
          unfold get_policies at hq
          have hcne : c ≠ "" := effective_of_prompt_ne_empty p f c (heff ▸ hc)
          simp only [hcne, ne_eq, not_false_iff, if_true] at hq
          by_cases hval : pyLower c ∈ policyTypeValues
          · simp only [hval, if_true, Except.ok.injEq] at hq
            subst hq
            have := List.mem_of_mem_take hpol
            rw [List.drop_zero] at this
            have hmem := (List.mem_filter.mp (List.mem_filter.mp this).1).2
            simpa using hmem
          · simp [hval] at hq

/-- C5, witness: a concrete failing-embedding environment produces the fallback
record with success true. -/
theorem C5_witness :
    get_policy_chat_response
      { embed := { success := false, error := some "timeout" }
        vectorCall := .ok emptySearchResult
        provider := .ok (some "unused")
        fileExists := fun _ => false }
      [{ id := 1, name := "P1", type := "hr", description := "D1" }] "zz" none =
      { response := (generate_fallback_response (fun _ => false)
          [{ id := 1, name := "P1", type := "hr", description := "D1" }] "zz"
          (effectiveTypeFilter none
            (validate_and_extract_policy_info "zz").extracted_policy_types)).response
        relevant_policies := (generate_fallback_response (fun _ => false)
          [{ id := 1, name := "P1", type := "hr", description := "D1" }] "zz"
          (effectiveTypeFilter none
            (validate_and_extract_policy_info "zz").extracted_policy_types)).policies
        context_used := some "Embedding failed; returned fallback results"
        success := true
        validation_info := some (validate_and_extract_policy_info "zz") } :=
  (C5_embedding_failure _ _ "zz" none rfl).1

/-! ## Claim C6 -/

/-- Index-based selection (`[xs[i] for i in keep]` with `keep` filtered from
`enumerate`) agrees with pairwise filtering when the two lists are parallel. -/
theorem filter_range_filterMap {β γ : Type} (dflt : β) (q : β → Bool) :
    ∀ (metas : List β) (l : List γ), l.length = metas.length →
    ((List.range metas.length).filter (fun i => q ((metas[i]?).getD dflt))).filterMap
        (fun i => l[i]?)
      = ((l.zip metas).filter (fun x => q x.2)).map Prod.fst := by
  intro metas
  induction metas with
  | nil =>
    intro l hl
    simp
  | cons m ms ih =>
    intro l hl
    cases l with
    | nil => simp at hl
    | cons d ds =>
      have hlen : ds.length = ms.length := by simpa using hl
      have hshift : ((List.range ms.length).filter
            (fun i => q ((ms[i]?).getD dflt))).filterMap (fun i => ds[i]?)
          = ((ds.zip ms).filter (fun x => q x.2)).map Prod.fst := ih ds hlen
      by_cases hqm : q m
      · simp only [List.length_cons, List.range_succ_eq_map, List.filter_cons,
          List.getElem?_cons_zero, Option.getD_some, hqm, if_true, List.filter_map,
          Function.comp_def, List.getElem?_cons_succ, List.filterMap_cons,
          List.filterMap_map, List.zip_cons_cons, List.map_cons]
        simpa [Function.comp_def, Nat.succ_eq_add_one] using hshift
      · simp only [List.length_cons, List.range_succ_eq_map, List.filter_cons,
          List.getElem?_cons_zero, Option.getD_some, hqm, if_false, List.filter_map,
          Function.comp_def, List.getElem?_cons_succ, List.filterMap_map,
          List.zip_cons_cons]
        simpa [Function.comp_def, Nat.succ_eq_add_one] using hshift

/-- Filtering each pair of a self-zip by its second component is ordinary
filtering. -/
theorem zip_self_filter_fst {β : Type} (q : β → Bool) (metas : List β) :
    ((metas.zip metas).filter (fun x => q x.2)).map Prod.fst = metas.filter q := by
  induction metas with
  | nil => simp
  | cons m ms ih =>
    by_cases hqm : q m <;> simp [List.zip_cons_cons, List.filter_cons, hqm, ih]

/-- C6, part helper: the post-filter equals declarative pairwise filtering. -/
theorem postFilter_eq_zip_filter (f : String) (docs : List PyVal)
    (metas : List (Option ChunkMeta)) (hlen : docs.length = metas.length) :
    postFilter f docs metas
      = (((docs.zip metas).filter (fun x => metaMatches f x.2)).map Prod.fst,
         metas.filter (metaMatches f)) := by
  have h1 := filter_range_filterMap (none : Option ChunkMeta) (metaMatches f) metas docs hlen
  have h2 := filter_range_filterMap (none : Option ChunkMeta) (metaMatches f) metas metas rfl
  rw [zip_self_filter_fst (metaMatches f) metas] at h2
  unfold postFilter
  by_cases hk : ((List.range metas.length).filter
      (fun i => metaMatches f ((metas[i]?).getD none))).isEmpty
  · simp only [hk, if_true]
    have hnil : ((List.range metas.length).filter
        (fun i => metaMatches f ((metas[i]?).getD none))) = [] :=
      List.isEmpty_iff.mp hk
    rw [hnil] at h1 h2
    simp only [List.filterMap_nil] at h1 h2
    exact Prod.ext h1 h2
  · simp only [hk, if_false]
    exact Prod.ext h1 h2

/-- C6: after retrieval with an effective category, results are re-filtered by
comparing each chunk's trimmed lower-cased category metadata with the trimmed
lower-cased filter — disagreeing chunks are dropped, order preserved — and when
no chunk survives the responder proceeds to the fallback response with success
true, not an error. -/
theorem C6_defensive_refilter (f : String) (docs : List PyVal)
    (metas : List (Option ChunkMeta)) (env : Env) (db : List Policy) (p : String)
    (pf : Option String) :
    (docs.length = metas.length →
      postFilter f docs metas
        = (((docs.zip metas).filter (fun x => metaMatches f x.2)).map Prod.fst,
           metas.filter (metaMatches f)))
    ∧ (∀ sr c, env.embed.success = true → env.vectorCall = .ok sr →
        effectiveTypeFilter pf (validate_and_extract_policy_info p).extracted_policy_types
          = some c →
        (∀ m ∈ sr.metadatas, metaMatches c m = false) →
        (get_policy_chat_response env db p pf).success = true
        ∧ (get_policy_chat_response env db p pf).context_used
            = some "No matching policy sections after filtering; used fallback.") := by
  constructor
  · intro hlen
    exact postFilter_eq_zip_filter f docs metas hlen
  · intro sr c hb hv heff hnm
    have hcne : c ≠ "" := effective_of_prompt_ne_empty p pf c heff
    have hkeep : ((List.range sr.metadatas.length).filter
        (fun i => metaMatches c ((sr.metadatas[i]?).getD none))) = [] := by
      rw [List.filter_eq_nil_iff]
      intro i hi
      have hi' : i < sr.metadatas.length := List.mem_range.mp hi
      have hsome : sr.metadatas[i]? = some sr.metadatas[i] := List.getElem?_eq_getElem hi'
      rw [hsome]
      simp only [Option.getD_some]
      have hm := hnm sr.metadatas[i] (List.getElem_mem hi')
      simp [hm]
    have hpf : postFilter c sr.documents sr.metadatas = ([], []) := by
      unfold postFilter
      rw [hkeep]
      simp
    have hctx : pyStrip (contextDataOf db (effectiveTypeFilter pf
        (validate_and_extract_policy_info p).extracted_policy_types) sr) = "" := by
      rw [heff]
      unfold contextDataOf filteredDocsMetas
      simp only [hcne, ne_eq, not_false_eq_true, if_true, hpf]
      rfl
    constructor <;> simp [get_policy_chat_response, hb, hv, hctx]

/-- Environment for the C6 witness: explicit `hr` filter, one retrieved chunk
whose metadata category is `it`. -/
def c6Env : Env :=
  { embed := { success := true, embedding := some [] }
    vectorCall := .ok { documents := [.str "x"]
                        metadatas := [some { policy_type := some "it" }]
                        distances := [], total_results := 1 }
    provider := .ok (some "unused")
    fileExists := fun _ => false }

/-- C6, witness: the disagreeing chunk is dropped and the request falls back
with success true. -/
theorem C6_witness :
    postFilter "hr" [.str "x"] [some { policy_type := some "it" }]
      = ((([.str "x"].zip ([some { policy_type := some "it" }] : List (Option ChunkMeta))).filter
            (fun x => metaMatches "hr" x.2)).map Prod.fst,
         ([some { policy_type := some "it" }] : List (Option ChunkMeta)).filter
           (metaMatches "hr"))
    ∧ ((get_policy_chat_response c6Env [] "qq" (some "hr")).success = true
       ∧ (get_policy_chat_response c6Env [] "qq" (some "hr")).context_used
           = some "No matching policy sections after filtering; used fallback.") :=
  ⟨(C6_defensive_refilter "hr" [.str "x"] [some { policy_type := some "it" }]
      c6Env [] "qq" (some "hr")).1 rfl,
   (C6_defensive_refilter "hr" [.str "x"] [some { policy_type := some "it" }]
      c6Env [] "qq" (some "hr")).2 _ "hr" rfl rfl (by decide) (by decide)⟩

/-! ## Claim C7 -/

theorem chunksOf_nil (C : Nat) : chunksOf C ([] : List α) = [] := by
  simp [chunksOf]

theorem chunksOf_cons (C : Nat) (x : α) (xs : List α) :
    chunksOf C (x :: xs) = (x :: xs.take (C - 1)) :: chunksOf C (xs.drop (C - 1)) := by
  simp [chunksOf]

/-- Fuelled helper: number of chunks is the ceiling of words over chunk size. -/
theorem chunksOf_length_aux (C : Nat) (hC : 0 < C) :
    ∀ (n : Nat) (l : List α), l.length ≤ n →
      (chunksOf C l).length = (l.length + C - 1) / C := by
  intro n
  induction n with
  | zero =>
    intro l hl
    have hle : l = [] := List.eq_nil_of_length_eq_zero (Nat.le_zero.mp hl)
    subst hle
    rw [chunksOf_nil]
    simp only [List.length_nil, Nat.zero_add]
    symm
    exact Nat.div_eq_of_lt (by omega)
  | succ n ih =>
    intro l hl
    cases l with
    | nil =>
      rw [chunksOf_nil]
      simp only [List.length_nil, Nat.zero_add]
      symm
      exact Nat.div_eq_of_lt (by omega)
    | cons x xs =>
      rw [chunksOf_cons, List.length_cons, List.length_cons]
      have hxs : (xs.drop (C - 1)).length ≤ n := by
        rw [List.length_drop]
        have : xs.length ≤ n := by simpa using hl
        omega
      rw [ih _ hxs, List.length_drop]
      have hrhs : xs.length + 1 + C - 1 = xs.length + C := by omega
      rw [hrhs, Nat.add_div_right _ hC]
      by_cases hw : C - 1 ≤ xs.length
      · have h1 : xs.length - (C - 1) + C - 1 = xs.length := by omega
        rw [h1]
      · have h1 : xs.length - (C - 1) = 0 := by omega
        rw [h1]
        have h2 : (0 + C - 1) / C = 0 := Nat.div_eq_of_lt (by omega)
        have h3 : xs.length / C = 0 := Nat.div_eq_of_lt (by omega)
        rw [h2, h3]

/-- Fuelled helper: concatenating the chunks restores the word list. -/
theorem chunksOf_flatten_aux (C : Nat) :
    ∀ (n : Nat) (l : List α), l.length ≤ n → (chunksOf C l).flatten = l := by
  intro n
  induction n with
  | zero =>
    intro l hl
    have hle : l = [] := List.eq_nil_of_length_eq_zero (Nat.le_zero.mp hl)
    subst hle
    rw [chunksOf_nil]
    rfl
  | succ n ih =>
    intro l hl
    cases l with
    | nil => rw [chunksOf_nil]; rfl
    | cons x xs =>
      rw [chunksOf_cons]
      have hxs : (xs.drop (C - 1)).length ≤ n := by
        rw [List.length_drop]
        have : xs.length ≤ n := by simpa using hl
        omega
      rw [List.flatten_cons, ih _ hxs]
      simp [List.take_append_drop]

/-- Chunking yields the empty list exactly for empty input. -/
theorem chunksOf_eq_nil_iff (C : Nat) (l : List α) : chunksOf C l = [] ↔ l = [] := by
  cases l with
  | nil => simp [chunksOf_nil]
  | cons x xs => rw [chunksOf_cons]; simp

/-- Fuelled helper: every chunk has between 1 and `C` words. -/
theorem chunksOf_mem_length_aux (C : Nat) (hC : 0 < C) :
    ∀ (n : Nat) (l : List α), l.length ≤ n →
      ∀ ch ∈ chunksOf C l, 0 < ch.length ∧ ch.length ≤ C := by
  intro n
  induction n with
  | zero =>
    intro l hl
    have hle : l = [] := List.eq_nil_of_length_eq_zero (Nat.le_zero.mp hl)
    subst hle
    simp [chunksOf_nil]
  | succ n ih =>
    intro l hl
    cases l with
    | nil => simp [chunksOf_nil]
    | cons x xs =>
      rw [chunksOf_cons]
      intro ch hch
      rcases List.mem_cons.mp hch with rfl | hch'
      · constructor
        · simp
        · rw [List.length_cons, List.length_take]
          omega
      · have hxs : (xs.drop (C - 1)).length ≤ n := by
          rw [List.length_drop]
          have : xs.length ≤ n := by simpa using hl
          omega
        exact ih _ hxs ch hch'

/-- Fuelled helper: every chunk except possibly the last has exactly `C` words. -/
theorem chunksOf_dropLast_aux (C : Nat) (hC : 0 < C) :
    ∀ (n : Nat) (l : List α), l.length ≤ n →
      ∀ ch ∈ (chunksOf C l).dropLast, ch.length = C := by
  intro n
  induction n with
  | zero =>
    intro l hl
    have hle : l = [] := List.eq_nil_of_length_eq_zero (Nat.le_zero.mp hl)
    subst hle
    simp [chunksOf_nil]
  | succ n ih =>
    intro l hl
    cases l with
    | nil => simp [chunksOf_nil]
    | cons x xs =>
      rw [chunksOf_cons]
      cases hrest : chunksOf C (xs.drop (C - 1)) with
      | nil => simp
      | cons r rs =>
        intro ch hch
        have hdl : ((x :: xs.take (C - 1)) :: r :: rs).dropLast
            = (x :: xs.take (C - 1)) :: (r :: rs).dropLast := rfl
        rw [hdl] at hch
        rcases List.mem_cons.mp hch with rfl | hch'
        · have hne : xs.drop (C - 1) ≠ [] := by
            intro hnil
            rw [hnil, chunksOf_nil] at hrest
            exact List.noConfusion hrest
          have hlen : C - 1 < xs.length := by
            by_contra hcon
            exact hne (List.drop_eq_nil_of_le (by omega))
          rw [List.length_cons, List.length_take]
          omega
        · have hxs : (xs.drop (C - 1)).length ≤ n := by
            rw [List.length_drop]
            have : xs.length ≤ n := by simpa using hl
            omega
          have := ih _ hxs ch
          rw [hrest] at this
          exact this hch'

/-- C7: for a page of `W` whitespace-delimited words and chunk size `C ≥ 1` the
chunker produces `⌈W / C⌉` chunks, in original word order and non-overlapping
(their word lists concatenate back to the page's words), all chunks of exactly
`C` words except possibly a shorter final one; empty text produces zero chunks
and a failed extraction produces an empty chunk list instead of raising. -/
theorem C7_chunker (t : String) (C : Nat) (hC : 0 < C) :
    (chunkText t C).length = ((pySplitWS t).length + C - 1) / C
    ∧ (chunksOf C (pySplitWS t)).flatten = pySplitWS t
    ∧ (chunkText t C = (chunksOf C (pySplitWS t)).map (fun ws => String.intercalate " " ws))
    ∧ (∀ ch ∈ (chunksOf C (pySplitWS t)).dropLast, ch.length = C)
    ∧ (∀ ch ∈ chunksOf C (pySplitWS t), 0 < ch.length ∧ ch.length ≤ C)
    ∧ chunkText "" C = []
    ∧ (∀ e, chunk_pdf_content (.error e) C = [])
    ∧ (∀ pages, chunk_pdf_content (.ok pages) C
        = pages.flatMap (fun pg =>
            match pg with
            | none => []
            | some tx => if tx = "" then [] else chunkText tx C)) := by
  refine ⟨?_, ?_, rfl, ?_, ?_, ?_, ?_, ?_⟩
  · rw [chunkText, List.length_map]
    exact chunksOf_length_aux C hC _ (pySplitWS t) le_rfl
  · exact chunksOf_flatten_aux C _ (pySplitWS t) le_rfl
  · exact chunksOf_dropLast_aux C hC _ (pySplitWS t) le_rfl
  · exact chunksOf_mem_length_aux C hC _ (pySplitWS t) le_rfl
  · rw [chunkText]
    have h0 : pySplitWS "" = [] := rfl
    rw [h0, chunksOf_nil]
    rfl
  · intro e
    unfold chunk_pdf_content
    rw [if_neg (by omega)]
  · intro pages
    unfold chunk_pdf_content
    rw [if_neg (by omega)]

/-- C7, witness: chunking `a b c` with chunk size 2 gives two chunks whose
lengths and contents match the contract. -/
theorem C7_witness :
    (0 < 2)
    ∧ (chunkText "a b c" 2).length = ((pySplitWS "a b c").length + 2 - 1) / 2
    ∧ (chunksOf 2 (pySplitWS "a b c")).flatten = pySplitWS "a b c" :=
  ⟨by decide, (C7_chunker "a b c" 2 (by decide)).1,
   (C7_chunker "a b c" 2 (by decide)).2.1⟩

/-! ## Claim C8 -/

/-- Python truthiness of an optional string field. -/
def pyTruthyStr (o : Option String) : Bool :=
  match o with
  | some s => s ≠ ""
  | none => false

theorem firstSentence_ne_nil (c : Char) (cs : List Char) :
    firstSentence (c :: cs) ≠ [] := by
  cases cs with
  | nil => simp [firstSentence]
  | cons d rest =>
    simp only [firstSentence]
    split <;> simp

/-- The first-sentence extraction returns a prefix of its input which is either
the whole input or ends in sentence punctuation immediately followed by a
whitespace character. -/
theorem firstSentence_spec (cs : List Char) :
    (firstSentence cs) <+: cs
    ∧ (firstSentence cs = cs ∨ ∃ p c rest, cs = firstSentence cs ++ c :: rest
        ∧ pyIsSpace c = true ∧ (firstSentence cs).getLast? = some p
        ∧ (p = '.' ∨ p = '!' ∨ p = '?')) := by
  induction cs with
  | nil => exact ⟨List.nil_prefix, Or.inl rfl⟩
  | cons c rest ih =>
    cases rest with
    | nil => exact ⟨List.prefix_refl _, Or.inl rfl⟩
    | cons d rest' =>
      by_cases hsplit : ((c = '.' || c = '!' || c = '?') && pyIsSpace d) = true
      · have hfs : firstSentence (c :: d :: rest') = [c] := by
          simp only [firstSentence, hsplit, if_true]
        rcases Bool.and_eq_true_iff.mp hsplit with ⟨hpunct, hws⟩
        rw [hfs]
        refine ⟨⟨d :: rest', rfl⟩, Or.inr ⟨c, d, rest', rfl, hws, rfl, ?_⟩⟩
        have h3 : (c = '.' ∨ c = '!') ∨ c = '?' := by
          simpa using hpunct
        tauto
      · have hfs : firstSentence (c :: d :: rest') = c :: firstSentence (d :: rest') := by
          simp only [firstSentence, hsplit]
          rfl
        rw [hfs]
        obtain ⟨ihp, ihr⟩ := ih
        constructor
        · obtain ⟨t, ht⟩ := ihp
          exact ⟨t, by rw [List.cons_append, ht]⟩
        · rcases ihr with heq | ⟨p, ch, r, hceq, hws, hlast, hp⟩
          · left
            rw [heq]
          · right
            refine ⟨p, ch, r, ?_, hws, ?_, hp⟩
            · rw [List.cons_append, ← hceq]
            · cases hfs2 : firstSentence (d :: rest') with
              | nil => exact absurd hfs2 (firstSentence_ne_nil d rest')
              | cons e es =>
                rw [hfs2] at hlast
                rw [List.getLast?_cons_cons]
                exact hlast

/-- C8: synthesis returns the empty string exactly when no chunk survives
flattening; otherwise it renders the fixed lead-in, one bullet per chunk for
the first three flattened chunks, and the fixed closing suggestion; each bullet
is the first sentence of the newline-stripped trimmed chunk plus a provenance
suffix chosen by the preference order policy-name, then title, then raw policy
id, taking the first truthy field and none when all are missing or falsy. -/
theorem C8_synthesis (prompt : String) (docs : List PyVal)
    (metas : List (Option ChunkMeta)) :
    (synthesize_from_chunks prompt docs metas = "" ↔ flatten_docs docs = [])
    ∧ (flatten_docs docs ≠ [] →
        synthesize_from_chunks prompt docs metas
          = synthHeader ++ String.intercalate "\n" (bulletsOf (flatten_docs docs) metas)
            ++ synthFooter)
    ∧ (bulletsOf (flatten_docs docs) metas).length = min 3 (flatten_docs docs).length
    ∧ (∀ m : ChunkMeta,
        (∀ s, m.policy_name = some s → s ≠ "" → titleOf (some m) = some s)
        ∧ (pyTruthyStr m.policy_name = false → ∀ s, m.title = some s → s ≠ "" →
            titleOf (some m) = some s)
        ∧ (pyTruthyStr m.policy_name = false → pyTruthyStr m.title = false →
            ∀ n, m.policy_id = some n → n ≠ 0 → titleOf (some m) = some (toString n))
        ∧ (pyTruthyStr m.policy_name = false → pyTruthyStr m.title = false →
            (m.policy_id = none ∨ m.policy_id = some 0) → titleOf (some m) = none))
    ∧ (∀ cs : List Char, (firstSentence cs) <+: cs
        ∧ (firstSentence cs = cs ∨ ∃ p c rest, cs = firstSentence cs ++ c :: rest
            ∧ pyIsSpace c = true ∧ (firstSentence cs).getLast? = some p
            ∧ (p = '.' ∨ p = '!' ∨ p = '?'))) := by
  refine ⟨?_, ?_, ?_, ?_, firstSentence_spec⟩
  · constructor
    · intro hempty
      by_contra hne
      have hne' : flatten_docs docs ≠ [] := hne
      cases hfd : flatten_docs docs with
      | nil => exact hne hfd
      | cons a l =>
        have : synthesize_from_chunks prompt docs metas ≠ "" := by
          unfold synthesize_from_chunks
          rw [hfd]
          simp only [List.isEmpty_cons, Bool.false_eq_true, if_false]
          have hbul : (bulletsOf (a :: l) metas).isEmpty = false := by
            simp [bulletsOf]
          rw [hbul]
          simp only [Bool.false_eq_true, if_false]
          exact synthHeader_append_ne_empty _
        exact this hempty
    · intro hfd
      unfold synthesize_from_chunks
      rw [hfd]
      rfl
  · intro hne
    cases hfd : flatten_docs docs with
    | nil => exact absurd hfd hne
    | cons a l =>
      unfold synthesize_from_chunks
      rw [hfd]
      simp only [List.isEmpty_cons, Bool.false_eq_true, if_false]
      have hbul : (bulletsOf (a :: l) metas).isEmpty = false := by
        simp [bulletsOf]
      rw [hbul]
      simp only [Bool.false_eq_true, if_false]
  · rw [bulletsOf, List.length_map, List.enum_length, List.length_take]
  · intro m
    refine ⟨?_, ?_, ?_, ?_⟩
    · intro s hs hne
      simp [titleOf, hs, hne]
    · intro hpn s hs hne
      cases hnm : m.policy_name with
      | none => simp [titleOf, hnm, hs, hne]
      | some pn =>
        have hpn' : pn = "" := by
          rw [hnm] at hpn
          simpa [pyTruthyStr] using hpn
        subst hpn'
        simp [titleOf, hnm, hs, hne]
    · intro hpn ht n hn hne
      cases hnm : m.policy_name with
      | none =>
        cases htt : m.title with
        | none => simp [titleOf, hnm, htt, hn, hne]
        | some tt =>
          have htt' : tt = "" := by
            rw [htt] at ht
            simpa [pyTruthyStr] using ht
          subst htt'
          simp [titleOf, hnm, htt, hn, hne]
      | some pn =>
        have hpn' : pn = "" := by
          rw [hnm] at hpn
          simpa [pyTruthyStr] using hpn
        subst hpn'
        cases htt : m.title with
        | none => simp [titleOf, hnm, htt, hn, hne]
        | some tt =>
          have htt' : tt = "" := by
            rw [htt] at ht
            simpa [pyTruthyStr] using ht
          subst htt'
          simp [titleOf, hnm, htt, hn, hne]
    · intro hpn ht hid
      cases hnm : m.policy_name with
      | none =>
        cases htt : m.title with
        | none =>
          rcases hid with h0 | h0 <;> simp [titleOf, hnm, htt, h0]
        | some tt =>
          have htt' : tt = "" := by
            rw [htt] at ht
            simpa [pyTruthyStr] using ht
          subst htt'
          rcases hid with h0 | h0 <;> simp [titleOf, hnm, htt, h0]
      | some pn =>
        have hpn' : pn = "" := by
          rw [hnm] at hpn
          simpa [pyTruthyStr] using hpn
        subst hpn'
        cases htt : m.title with
        | none =>
          rcases hid with h0 | h0 <;> simp [titleOf, hnm, htt, h0]
        | some tt =>
          have htt' : tt = "" := by
            rw [htt] at ht
            simpa [pyTruthyStr] using ht
          subst htt'
          rcases hid with h0 | h0 <;> simp [titleOf, hnm, htt, h0]

/-- C8, witness: a concrete chunk list renders as the fixed header, bullets and
footer, and a truthy policy-name field wins the provenance preference. -/
theorem C8_witness :
    synthesize_from_chunks "q" [.str "One. Two."] [some { policy_name := some "P" }]
      = synthHeader ++ String.intercalate "\n"
          (bulletsOf (flatten_docs [.str "One. Two."]) [some { policy_name := some "P" }])
        ++ synthFooter
    ∧ titleOf (some { policy_name := some "P" }) = some "P" :=
  ⟨(C8_synthesis "q" [.str "One. Two."] [some { policy_name := some "P" }]).2.1 (by decide),
   ((C8_synthesis "q" [.str "One. Two."] [some { policy_name := some "P" }]).2.2.2.1
      { policy_name := some "P" }).1 "P" rfl (by decide)⟩

/-! ## Claim C9 -/

/-- A string that starts with `F` is not the vector-search-failed context
string. -/
theorem ne_vecfail_of_headF (x : String) (hx : x.data.head? = some 'F') :
    x ≠ "Vector search failed; returned fallback results" := by
  intro h
  rw [h] at hx
  exact absurd hx (by decide)

/-- C9: the search adapter is total — the collection-unavailable, missing
embedding, wrong-dimension and raising-query cases all return the
empty-results dictionary (whose four keys are always present, with
`total_results` the length of `documents`), and a responder run whose search
call returns a value (as this adapter always does) never takes the
vector-search-failed branch. -/
theorem C9_search_total (coll : CollectionModel) (e : List Rat) (n : Nat)
    (f : Option String) (collOpt : Option CollectionModel) (emb : Option (List Rat))
    (env : Env) (db : List Policy) (p : String) (pf : Option String) :
    VectorDB.search none (some e) n f = emptySearchResult
    ∧ VectorDB.search (some coll) none n f = emptySearchResult
    ∧ (e.length ≠ 768 → VectorDB.search (some coll) (some e) n f = emptySearchResult)
    ∧ (∀ err, e ≠ [] → e.length = 768 →
        coll.query e n (whereClauseOf f) = .error err →
        VectorDB.search (some coll) (some e) n f = emptySearchResult)
    ∧ (VectorDB.search collOpt emb n f).total_results
        = (VectorDB.search collOpt emb n f).documents.length
    ∧ (∀ sr, env.vectorCall = .ok sr →
        (get_policy_chat_response env db p pf).context_used
          ≠ some "Vector search failed; returned fallback results") := by
  refine ⟨rfl, rfl, ?_, ?_, ?_, ?_⟩
  · intro h768
    simp [VectorDB.search, h768]
  · intro err hne hlen hq
    have h1 : e.isEmpty = false := by
      cases e with
      | nil => exact absurd rfl hne
      | cons a l => rfl
    simp [VectorDB.search, h1, hlen, hq]
  · cases collOpt with
    | none => rfl
    | some c =>
      cases emb with
      | none => rfl
      | some e' =>
        simp only [VectorDB.search]
        split
        · rfl
        · split <;> rfl
  · intro sr hv
    by_cases hb : env.embed.success
    · by_cases hctx : pyStrip (contextDataOf db (effectiveTypeFilter pf
          (validate_and_extract_policy_info p).extracted_policy_types) sr) ≠ ""
      · simp only [get_policy_chat_response, hb, Bool.not_true, Bool.false_eq_true,
          if_false, hv]
        rw [if_pos hctx]
        simp only [ne_eq, Option.some.injEq]
        intro h
        refine ne_vecfail_of_headF _ ?_ h
        rfl
      · simp only [get_policy_chat_response, hb, Bool.not_true, Bool.false_eq_true,
          if_false, hv]
        rw [if_neg hctx]
        simp
    · have hb' : env.embed.success = false := by
        cases hsb : env.embed.success
        · rfl
        · exact absurd hsb hb
      simp [get_policy_chat_response, hb']

/-- C9, witness: the degraded cases at concrete inputs, and a concrete
responder run through the adapter result never reports a vector-search
failure. -/
theorem C9_witness :
    (VectorDB.search (some { query := fun _ _ _ => .error "down" }) (some [0]) 5 none
      = emptySearchResult)
    ∧ ((get_policy_chat_response
        { embed := { success := true, embedding := some [] }
          vectorCall := .ok emptySearchResult
          provider := .ok (some "unused")
          fileExists := fun _ => false } [] "zz" none).context_used
        ≠ some "Vector search failed; returned fallback results") :=
  ⟨(C9_search_total { query := fun _ _ _ => .error "down" } [0] 5 none none none
      { embed := { success := true, embedding := some [] }
        vectorCall := .ok emptySearchResult
        provider := .ok (some "unused")
        fileExists := fun _ => false } [] "zz" none).2.2.1 (by decide),
   (C9_search_total { query := fun _ _ _ => .error "down" } [0] 5 none none none
      { embed := { success := true, embedding := some [] }
        vectorCall := .ok emptySearchResult
        provider := .ok (some "unused")
        fileExists := fun _ => false } [] "zz" none).2.2.2.2.2 emptySearchResult rfl⟩

/-! ## Claim C10 -/

/-- C10: `delete_document` returns `True` on every path — including when the
vector database is unavailable and when the underlying deletion raises — so
`delete_policy` reports success and removes the catalog row even though the
policy's chunks are still in the index on those degraded paths. -/
theorem C10_delete_always_true (avail : Bool) (raise? : Option String)
    (st : IndexState) (db : List Policy) (pid : Nat) :
    (delete_document avail raise? st pid).1 = true
    ∧ (∀ e pol, raise? = some e → get_policy db pid = some pol →
        delete_policy avail raise? db st pid
          = (true, db.filter (fun q => q.id ≠ pid), st))
    ∧ (∀ pol, avail = false → get_policy db pid = some pol →
        delete_policy avail raise? db st pid
          = (true, db.filter (fun q => q.id ≠ pid), st)) := by
  refine ⟨?_, ?_, ?_⟩
  · unfold delete_document
    by_cases ha : avail <;> cases raise? <;> simp [ha]
  · intro e pol hr hp
    unfold delete_policy
    rw [hp]
    subst hr
    unfold delete_document
    by_cases ha : avail <;> simp [ha]
  · intro pol ha hp
    unfold delete_policy
    rw [hp]
    subst ha
    unfold delete_document
    cases raise? <;> simp

/-- C10, witness: deleting policy 7 while the underlying chunk deletion raises
still returns success, removes the catalog row, and leaves the chunk in the
index. -/
theorem C10_witness :
    (delete_document true (some "down") ⟨[{ policy_id := 7 }]⟩ 7).1 = true
    ∧ delete_policy true (some "down")
        [{ id := 7, name := "P", type := "hr", description := "D" }]
        ⟨[{ policy_id := 7 }]⟩ 7
      = (true,
         ([{ id := 7, name := "P", type := "hr", description := "D" }] : List Policy).filter
           (fun q => q.id ≠ 7),
         ⟨[{ policy_id := 7 }]⟩) :=
  ⟨(C10_delete_always_true true (some "down") ⟨[{ policy_id := 7 }]⟩
      [{ id := 7, name := "P", type := "hr", description := "D" }] 7).1,
   (C10_delete_always_true true (some "down") ⟨[{ policy_id := 7 }]⟩
      [{ id := 7, name := "P", type := "hr", description := "D" }] 7).2.1 "down" _ rfl rfl⟩

end Back156
